import Mathlib

/-!
Shallow embedding of `src/csv_header_analyzer.py` (class `CSVHeaderAnalyzer`
and function `main`).

Strings are modelled by Lean `String`; Python `str.lower()`, `in` (substring
test), single-character `str.replace` and `str.strip()` are modelled
character-wise on the underlying character list.  Effectful code (file I/O,
`sys.exit`) is modelled by explicit outcome parameters: the state of the input
file is a `FileState`, the outcome of the attempted report write is a
`WriteOutcome`, and `main` becomes a pure function from those to its exit
status.
-/

/-- Python `s.lower()` restricted to the characters that occur here:
character-wise lowercasing of the string. -/
def pyLower (s : String) : String := ⟨s.data.map Char.toLower⟩

/-- Python `needle in hay` for strings: `needle` occurs contiguously inside
`hay`. -/
def inStr (needle hay : String) : Bool := decide (needle.data <:+: hay.data)

/-- The `patterns` dictionary built inside `generate_description_simple`
(src/csv_header_analyzer.py lines 82-153), as an ordered association list:
Python dictionaries preserve insertion order and these keys are pairwise
distinct, so the list holds exactly the same data with the same iteration
order. -/
def patterns : List (String × String) := [
  ("invoice_id", "unique transaction identifier"),
  ("order_id", "unique order identifier"),
  ("customer_id", "unique customer identifier"),
  ("product_id", "unique product identifier"),
  ("user_id", "unique user identifier"),
  ("id", "unique identifier"),
  ("vendor_name", "the supplier or vendor associated with the transaction"),
  ("customer_name", "the customer associated with the transaction"),
  ("product_name", "the name of the product"),
  ("company_name", "the name of the company"),
  ("name", "name or title information"),
  ("amount", "monetary value of the transaction"),
  ("price", "price or cost of the item"),
  ("total", "total amount"),
  ("subtotal", "subtotal amount before taxes"),
  ("tax", "tax amount"),
  ("discount", "discount amount"),
  ("cost", "cost of the item or service"),
  ("fee", "fee amount"),
  ("charge", "charge amount"),
  ("payment_date", "date on which the payment was made"),
  ("order_date", "date when the order was placed"),
  ("invoice_date", "date when the invoice was created"),
  ("due_date", "date when payment is due"),
  ("created_date", "date when the record was created"),
  ("updated_date", "date when the record was last updated"),
  ("date", "date information"),
  ("email", "email address"),
  ("phone", "phone number"),
  ("address", "address information"),
  ("zip", "postal code"),
  ("city", "city name"),
  ("state", "state or province"),
  ("country", "country name"),
  ("status", "current status of the record"),
  ("type", "category or type classification"),
  ("category", "category classification"),
  ("description", "detailed description of the item"),
  ("vendor", "supplier or vendor information"),
  ("customer", "customer information"),
  ("payment", "payment-related information"),
  ("invoice", "invoice or billing information"),
  ("order", "order information"),
  ("product", "product information"),
  ("item", "item information"),
  ("service", "service information"),
  ("quantity", "quantity or count"),
  ("qty", "quantity or count"),
  ("count", "count or number"),
  ("number", "numeric value"),
  ("shipping", "shipping information"),
  ("billing", "billing information"),
  ("delivery", "delivery information")]

/-- Python `header_lower in patterns` / `patterns[header_lower]`: dictionary
lookup, i.e. the (unique) entry whose key equals `k`. -/
def lookupPattern (k : String) : Option String :=
  (patterns.find? (fun p => p.1 == k)).map Prod.snd

/-- The substring-match loop of `generate_description_simple`
(lines 160-162): iterate `patterns` in declaration order and return the first
description whose key occurs inside `hl` and has length greater than 2. -/
def findSubstrPattern (hl : String) : Option String :=
  (patterns.find? (fun p => inStr p.1 hl && decide (2 < p.1.length))).map Prod.snd

/-- Python `s.replace('_', ' ').replace('-', ' ')` (line 165): two sequential
replacements of a single character by a space, character-wise. -/
def replaceUnderscoreHyphen (s : String) : String :=
  ⟨(s.data.map (fun c => if c == '_' then ' ' else c)).map
      (fun c => if c == '-' then ' ' else c)⟩

/-- `CSVHeaderAnalyzer.generate_description_simple` (lines 68-166):
exact dictionary lookup on the lowercased header, then the first
declaration-order substring match among keys longer than 2 characters, then
the generic fallback built from the cleaned lowercased header. -/
def generate_description_simple (header : String) : String :=
  let header_lower := pyLower header
  match lookupPattern header_lower with
  | some d => d
  | none =>
    match findSubstrPattern header_lower with
    | some d => d
    | none => "data field related to " ++ replaceUnderscoreHyphen header_lower

/-- `CSVHeaderAnalyzer.generate_description_with_model` (lines 168-180): the
body is a single call to `generate_description_simple`. -/
def generate_description_with_model (header : String) : String :=
  generate_description_simple header

/-- Python dictionary assignment `results[header] = description`: if the key
is already present its value is overwritten in place, otherwise the pair is
appended at the end (insertion order is preserved). -/
def dictInsert (d : List (String × String)) (k v : String) :
    List (String × String) :=
  if d.any (fun p => p.1 == k) then
    d.map (fun p => if p.1 == k then (k, v) else p)
  else d ++ [(k, v)]

/-- `CSVHeaderAnalyzer.analyze_headers` (lines 182-199): fold over the input
headers, skipping empty ones (`if header:`) and recording
`generate_description_with_model header` under the header in the result
dictionary. -/
def analyze_headers (headers : List String) : List (String × String) :=
  headers.foldl
    (fun results header =>
      if header.isEmpty then results
      else dictInsert results header (generate_description_with_model header))
    []

/-- The state of the analyzer object: `model_name` and `classifier`
(a classifier is never actually constructed, so its presence is all that can
be observed; `Option Unit` records presence). -/
structure AnalyzerState where
  model_name : String
  classifier : Option Unit
deriving DecidableEq

/-- `CSVHeaderAnalyzer._load_model` (lines 33-44): both the normal path and
the exception path end with `self.classifier = None`. -/
def load_model (a : AnalyzerState) : AnalyzerState :=
  ⟨a.model_name, none⟩

/-- `CSVHeaderAnalyzer.__init__` (lines 22-31): store the model name, set
`classifier = None`, then call `_load_model`. -/
def analyzerInit (model_name : String) : AnalyzerState :=
  load_model ⟨model_name, none⟩

/-- The relevant state of the input file when `read_csv_headers` runs:
the file is missing (`open` raises `FileNotFoundError`), some other I/O or
decoding error occurs (`open`/`next` raises another exception), or the file
parses into a list of CSV records. -/
inductive FileState where
  | missing
  | ioError (msg : String)
  | rows (rs : List (List String))
deriving DecidableEq

/-- Outcome of the attempt to write the report file in `save_results`. -/
inductive WriteOutcome where
  | success
  | failure (msg : String)
deriving DecidableEq

/-- `CSVHeaderAnalyzer.read_csv_headers` (lines 46-66): return the first CSV
record with each field stripped; `FileNotFoundError` is caught and yields
`[]`; any other exception is caught by `except Exception` and yields `[]` —
including the `StopIteration` raised by `next(reader)` when the file has no
record at all.  The function is total: no error propagates to the caller. -/
def read_csv_headers (fs : FileState) : List String :=
  match fs with
  | FileState.missing => []
  | FileState.ioError _ => []
  | FileState.rows [] => []
  | FileState.rows (r :: _) => r.map String.trim

/-- `CSVHeaderAnalyzer.save_results` (lines 217-238): the whole body is inside
`try/except Exception`, so the function always returns normally; the only
observable difference is the message printed.  Returns that message. -/
def save_results (output_file : String) (w : WriteOutcome) : String :=
  match w with
  | WriteOutcome.success => "Results saved to: " ++ output_file
  | WriteOutcome.failure e => "Error saving results to file: " ++ e

/-- `main` (lines 241-281), as the exit status of the process.  `argv` is the
full `sys.argv` (program name included), so `argv.length = 2` means exactly
one user argument.  `sys.exit(1)` when the argument count is wrong, when
`os.path.exists` fails, or when `read_csv_headers` returns an empty list;
otherwise the headers are analyzed, printed and saved (`save_results` never
raises) and the process ends normally with status 0. -/
def main_exit (argv : List String) (fs : FileState) (w : WriteOutcome) : Nat :=
  if argv.length ≠ 2 then 1
  else if fs = FileState.missing then 1
  else
    let headers := read_csv_headers fs
    if headers.isEmpty then 1
    else
      let results := analyze_headers headers
      let _ := save_results "output.txt" w
      let _ := results
      0

/-- Modelled from the spec (§3, §4.3): the keys the result dictionary should
hold — the non-empty input headers, in first-occurrence order, duplicates
kept where they first appeared. -/
def firstOccKeys (headers : List String) : List String :=
  headers.foldl
    (fun acc h => if h.isEmpty ∨ h ∈ acc then acc else acc ++ [h]) []

/-! Helper lemmas. -/

lemma patterns_keys_nodup : (patterns.map Prod.fst).Nodup := by decide

lemma find?_key_of_mem {l : List (String × String)} (hnd : (l.map Prod.fst).Nodup)
    {k d : String} (hmem : (k, d) ∈ l) :
    l.find? (fun p => p.1 == k) = some (k, d) := by
  induction l with
  | nil => simp at hmem
  | cons a t ih =>
    simp only [List.map_cons, List.nodup_cons] at hnd
    rcases List.mem_cons.mp hmem with h | h
    · rw [← h]
      exact List.find?_cons_of_pos _ (by simp)
    · have hak : ¬(a.1 == k) = true := by
        simp only [beq_iff_eq]
        intro hk
        exact hnd.1 (hk ▸ List.mem_map.mpr ⟨(k, d), h, rfl⟩)
      exact (List.find?_cons_of_neg t hak).trans (ih hnd.2 h)

lemma main_exit_eq_one_of_empty (argv : List String) (fs : FileState)
    (w : WriteOutcome) (h : read_csv_headers fs = []) :
    main_exit argv fs w = 1 := by
  unfold main_exit
  by_cases h1 : argv.length = 2
  · by_cases h2 : fs = FileState.missing
    · simp [h1, h2]
    · simp [h1, h2, h]
  · simp [h1]

/-! The claim theorems. -/

/-- C1: a header whose lowercased form equals a table key K is answered by the
exact-match path: `generate_description_simple` returns the table description
of K, whatever substring relations hold with other keys. -/
theorem exact_match_returns_table_description (H K desc : String)
    (hmem : (K, desc) ∈ patterns) (hlow : pyLower H = K) :
    generate_description_simple H = desc := by
  have hfind : patterns.find? (fun p => p.1 == pyLower H) = some (K, desc) := by
    rw [hlow]
    exact find?_key_of_mem patterns_keys_nodup hmem
  simp [generate_description_simple, lookupPattern, hfind]

theorem exact_match_returns_table_description_witness :
    ("invoice_id", "unique transaction identifier") ∈ patterns ∧
    pyLower "Invoice_ID" = "invoice_id" ∧
    generate_description_simple "Invoice_ID" = "unique transaction identifier" :=
  ⟨by decide, by decide,
    exact_match_returns_table_description "Invoice_ID" "invoice_id"
      "unique transaction identifier" (by decide) (by decide)⟩

/-- C2: when no key matches the lowercased header exactly, and (K, desc) is an
entry of `patterns` such that K is longer than 2 characters and occurs inside
the lowercased header while no earlier entry does so,
`generate_description_simple` returns desc — the first match in declaration
order, not the longest one. -/
theorem substring_first_match (H K desc : String)
    (l₁ l₂ : List (String × String))
    (hsplit : patterns = l₁ ++ (K, desc) :: l₂)
    (hnoexact : ∀ p ∈ patterns, p.1 ≠ pyLower H)
    (hmatch : inStr K (pyLower H) = true) (hlen : 2 < K.length)
    (hfirst : ∀ p ∈ l₁, ¬(inStr p.1 (pyLower H) = true ∧ 2 < p.1.length)) :
    generate_description_simple H = desc := by
  have hex : patterns.find? (fun p => p.1 == pyLower H) = none := by
    rw [List.find?_eq_none]
    intro p hp
    simpa using hnoexact p hp
  have hsub : patterns.find?
      (fun p => inStr p.1 (pyLower H) && decide (2 < p.1.length)) = some (K, desc) := by
    rw [List.find?_eq_some]
    refine ⟨by simp [hmatch, hlen], l₁, l₂, hsplit, ?_⟩
    intro a ha
    by_cases h1 : inStr a.1 (pyLower H) = true
    · have h2 : ¬(2 < a.1.length) := fun hl2 => hfirst a ha ⟨h1, hl2⟩
      simp [h1, h2]
    · simp [h1]
  simp [generate_description_simple, lookupPattern, findSubstrPattern, hex, hsub]

theorem substring_first_match_witness :
    patterns = patterns.take 11 ++
      ("amount", "monetary value of the transaction") :: patterns.drop 12 ∧
    (∀ p ∈ patterns, p.1 ≠ pyLower "total_amount") ∧
    inStr "amount" (pyLower "total_amount") = true ∧
    (∀ p ∈ patterns.take 11,
      ¬(inStr p.1 (pyLower "total_amount") = true ∧ 2 < p.1.length)) ∧
    generate_description_simple "total_amount" = "monetary value of the transaction" :=
  ⟨by decide, by decide, by decide, by decide,
    substring_first_match "total_amount" "amount" "monetary value of the transaction"
      (patterns.take 11) (patterns.drop 12)
      (by decide) (by decide) (by decide) (by decide) (by decide)⟩

/-- C3: when no key matches the lowercased header exactly and no key longer
than 2 characters occurs inside it, `generate_description_simple` returns the
string "data field related to " followed by the lowercased header with each
underscore and hyphen replaced by a space. -/
theorem fallback_generic_description (H : String)
    (hno : ∀ p ∈ patterns,
      p.1 ≠ pyLower H ∧ ¬(inStr p.1 (pyLower H) = true ∧ 2 < p.1.length)) :
    generate_description_simple H =
      "data field related to " ++ replaceUnderscoreHyphen (pyLower H) := by
  have hex : patterns.find? (fun p => p.1 == pyLower H) = none := by
    rw [List.find?_eq_none]
    intro p hp
    simpa using (hno p hp).1
  have hsub : patterns.find?
      (fun p => inStr p.1 (pyLower H) && decide (2 < p.1.length)) = none := by
    rw [List.find?_eq_none]
    intro p hp
    have h := (hno p hp).2
    by_cases h1 : inStr p.1 (pyLower H) = true
    · have h2 : ¬(2 < p.1.length) := fun hl2 => h ⟨h1, hl2⟩
      simp [h1, h2]
    · simp [h1]
  simp [generate_description_simple, lookupPattern, findSubstrPattern, hex, hsub]

theorem fallback_generic_description_witness :
    (∀ p ∈ patterns,
      p.1 ≠ pyLower "notes" ∧ ¬(inStr p.1 (pyLower "notes") = true ∧ 2 < p.1.length)) ∧
    generate_description_simple "notes" =
      "data field related to " ++ replaceUnderscoreHyphen (pyLower "notes") :=
  ⟨by decide, fallback_generic_description "notes" (by decide)⟩

/-- C4: analyzing the sample header row gives exactly the documented four
results, in input order. -/
theorem analyze_sample_headers :
    analyze_headers ["invoice_id", "amount", "payment_date", "notes"] =
      [("invoice_id", "unique transaction identifier"),
       ("amount", "monetary value of the transaction"),
       ("payment_date", "date on which the payment was made"),
       ("notes", "data field related to notes")] := by decide

lemma dictInsert_map_fst (d : List (String × String)) (k v : String) :
    (dictInsert d k v).map Prod.fst =
      if k ∈ d.map Prod.fst then d.map Prod.fst else d.map Prod.fst ++ [k] := by
  unfold dictInsert
  by_cases h : d.any (fun p => p.1 == k) = true
  · have hk : k ∈ d.map Prod.fst := by
      rcases List.any_eq_true.mp h with ⟨p, hp, hpk⟩
      exact List.mem_map.mpr ⟨p, hp, by simpa using hpk.symm⟩
    rw [if_pos h, if_pos hk, List.map_map]
    refine List.map_congr_left (fun p _ => ?_)
    simp only [Function.comp_apply]
    by_cases hpk : p.1 = k
    · simp [hpk]
    · simp [hpk]
  · have hk : k ∉ d.map Prod.fst := by
      intro hmem
      rcases List.mem_map.mp hmem with ⟨p, hp, hpk⟩
      exact h (List.any_eq_true.mpr ⟨p, hp, by simp [hpk]⟩)
    rw [if_neg h, if_neg hk]
    simp

lemma analyze_fold_keys (hs : List String) :
    ∀ d : List (String × String),
      ((hs.foldl
          (fun results header =>
            if header.isEmpty then results
            else dictInsert results header (generate_description_with_model header))
          d).map Prod.fst)
        = hs.foldl (fun acc h => if h.isEmpty ∨ h ∈ acc then acc else acc ++ [h])
            (d.map Prod.fst) := by
  induction hs with
  | nil => intro d; rfl
  | cons h t ih =>
    intro d
    simp only [List.foldl_cons]
    by_cases he : h.isEmpty
    · rw [if_pos he, ih d]
      congr 1
      simp [he]
    · rw [if_neg he, ih]
      congr 1
      rw [dictInsert_map_fst]
      by_cases hk : h ∈ d.map Prod.fst
      · simp [he, hk]
      · simp [he, hk]

lemma dictInsert_values {P : String → String → Prop} {d : List (String × String)}
    {k v : String}
    (hd : ∀ p ∈ d, P p.1 p.2) (hv : P k v) :
    ∀ p ∈ dictInsert d k v, P p.1 p.2 := by
  intro p hp
  unfold dictInsert at hp
  by_cases h : d.any (fun q => q.1 == k) = true
  · rw [if_pos h] at hp
    rcases List.mem_map.mp hp with ⟨q, hq, hqe⟩
    by_cases hqk : q.1 = k
    · rw [← hqe]
      simp only [hqk, beq_self_eq_true, if_pos]
      exact hv
    · rw [← hqe]
      have : (q.1 == k) = false := by simp [hqk]
      simp only [this, Bool.false_eq_true, if_false]
      exact hd q hq
  · rw [if_neg h] at hp
    rcases List.mem_append.mp hp with hq | hq
    · exact hd p hq
    · rw [List.mem_singleton.mp hq]
      exact hv

lemma analyze_fold_values (hs : List String) :
    ∀ d : List (String × String),
      (∀ p ∈ d, p.2 = generate_description_with_model p.1) →
      ∀ p ∈ hs.foldl
          (fun results header =>
            if header.isEmpty then results
            else dictInsert results header (generate_description_with_model header))
          d, p.2 = generate_description_with_model p.1 := by
  induction hs with
  | nil => intro d hd; exact hd
  | cons h t ih =>
    intro d hd
    simp only [List.foldl_cons]
    by_cases he : h.isEmpty
    · rw [if_pos he]
      exact ih d hd
    · rw [if_neg he]
      refine ih _ ?_
      exact dictInsert_values
        (P := fun a b => b = generate_description_with_model a) hd rfl

lemma mem_firstOccKeys_fold (hs : List String) :
    ∀ (acc : List String) (x : String),
      x ∈ hs.foldl (fun acc h => if h.isEmpty ∨ h ∈ acc then acc else acc ++ [h]) acc ↔
        x ∈ acc ∨ (x ∈ hs ∧ ¬x.isEmpty = true) := by
  induction hs with
  | nil => simp
  | cons h t ih =>
    intro acc x
    simp only [List.foldl_cons]
    rw [ih]
    by_cases hcond : (h.isEmpty = true ∨ h ∈ acc)
    · rw [if_pos hcond]
      constructor
      · rintro (hx | hx)
        · exact Or.inl hx
        · exact Or.inr ⟨List.mem_cons_of_mem _ hx.1, hx.2⟩
      · rintro (hx | ⟨hx1, hx2⟩)
        · exact Or.inl hx
        · rcases List.mem_cons.mp hx1 with rfl | hx1
          · rcases hcond with hc | hc
            · exact absurd hc hx2
            · exact Or.inl hc
          · exact Or.inr ⟨hx1, hx2⟩
    · rw [if_neg hcond]
      push_neg at hcond
      constructor
      · rintro (hx | hx)
        · rcases List.mem_append.mp hx with hx | hx
          · exact Or.inl hx
          · rw [List.mem_singleton.mp hx]
            exact Or.inr ⟨List.mem_cons_self _ _, hcond.1⟩
        · exact Or.inr ⟨List.mem_cons_of_mem _ hx.1, hx.2⟩
      · rintro (hx | ⟨hx1, hx2⟩)
        · exact Or.inl (List.mem_append_left _ hx)
        · rcases List.mem_cons.mp hx1 with rfl | hx1
          · exact Or.inl (List.mem_append_right _ (List.mem_singleton.mpr rfl))
          · exact Or.inr ⟨hx1, hx2⟩

/-- C5: the result of `analyze_headers` has as keys exactly the non-empty
input headers, listed in first-occurrence input order (a repeated header
overwrites in place and does not move), and each key is mapped to its
`generate_description_simple` description. -/
theorem analyze_headers_result_shape (hs : List String) :
    (analyze_headers hs).map Prod.fst = firstOccKeys hs ∧
    (∀ x, x ∈ (analyze_headers hs).map Prod.fst ↔ (x ∈ hs ∧ ¬x.isEmpty = true)) ∧
    (∀ p ∈ analyze_headers hs, p.2 = generate_description_simple p.1) := by
  have hkeys : (analyze_headers hs).map Prod.fst = firstOccKeys hs := by
    simpa using analyze_fold_keys hs []
  refine ⟨hkeys, ?_, ?_⟩
  · intro x
    rw [hkeys]
    unfold firstOccKeys
    rw [mem_firstOccKeys_fold]
    simp
  · intro p hp
    exact analyze_fold_values hs [] (by simp) p hp

theorem analyze_headers_result_shape_witness :
    (analyze_headers ["b_id", "a_id", "b_id"]).map Prod.fst =
      firstOccKeys ["b_id", "a_id", "b_id"] :=
  (analyze_headers_result_shape ["b_id", "a_id", "b_id"]).1

/-- C6: the process exits with status 0 exactly when the argument count is
right, the input file exists and at least one header field was extracted
(read_csv_headers returned a non-empty list); the write outcome `w` is
universally quantified, so a failed report write never changes the exit
status. -/
theorem main_exit_zero_iff (argv : List String) (fs : FileState)
    (w : WriteOutcome) :
    main_exit argv fs w = 0 ↔
      (argv.length = 2 ∧ fs ≠ FileState.missing ∧ read_csv_headers fs ≠ []) := by
  unfold main_exit
  by_cases h1 : argv.length = 2
  · by_cases h2 : fs = FileState.missing
    · simp [h1, h2]
    · by_cases h3 : read_csv_headers fs = []
      · simp [h1, h2, h3]
      · simp [h1, h2, h3, List.isEmpty_iff]
  · simp [h1]

theorem main_exit_zero_iff_witness :
    main_exit ["csv_header_analyzer.py", "sample_data.csv"]
      (FileState.rows [["invoice_id", "amount"]]) (WriteOutcome.failure "disk full")
      = 0 :=
  (main_exit_zero_iff ["csv_header_analyzer.py", "sample_data.csv"]
      (FileState.rows [["invoice_id", "amount"]])
      (WriteOutcome.failure "disk full")).mpr (by decide)

/-- C7: `read_csv_headers` is total (the embedding returns a list in every
case, mirroring the `except` handlers): a missing file and any other read
failure both yield the empty list, and whenever the returned list is empty
`main` terminates with exit status 1. -/
theorem read_csv_headers_error_contract :
    read_csv_headers FileState.missing = [] ∧
    (∀ msg, read_csv_headers (FileState.ioError msg) = []) ∧
    (∀ argv fs w, read_csv_headers fs = [] → main_exit argv fs w = 1) :=
  ⟨rfl, fun _ => rfl, fun argv fs w h => main_exit_eq_one_of_empty argv fs w h⟩

theorem read_csv_headers_error_contract_witness :
    read_csv_headers (FileState.ioError "permission denied") = [] ∧
    main_exit ["csv_header_analyzer.py", "locked.csv"]
      (FileState.ioError "permission denied") WriteOutcome.success = 1 :=
  ⟨read_csv_headers_error_contract.2.1 "permission denied",
   read_csv_headers_error_contract.2.2 ["csv_header_analyzer.py", "locked.csv"]
     (FileState.ioError "permission denied") WriteOutcome.success rfl⟩

/-- C8 counterexample: the canonical table does contain a key of length 2 —
the entry ("id", "unique identifier") — so the claim that no key has length 1
or 2 is false. -/
theorem patterns_contain_two_char_key :
    ("id", "unique identifier") ∈ patterns ∧
    ¬(∀ p ∈ patterns, ¬(p.1.length = 1 ∨ p.1.length = 2)) := by decide

/-- C8 (amended): the table contains exactly one key of length at most 2,
namely "id"; a short header can still exact-match it (describe "ID" =
"unique identifier"), but a header shorter than 3 characters can never
trigger a substring match, because the substring loop skips keys of length
at most 2 and a longer key cannot occur inside a shorter header. -/
theorem short_header_no_substring_match (H : String) (hH : H.length < 3) :
    (∀ p ∈ patterns, p.1.length ≤ 2 → p = ("id", "unique identifier")) ∧
    generate_description_simple "ID" = "unique identifier" ∧
    findSubstrPattern (pyLower H) = none := by
  refine ⟨by decide, by decide, ?_⟩
  unfold findSubstrPattern
  rw [List.find?_eq_none.mpr, Option.map_none']
  intro p _
  intro hcontra
  rw [Bool.and_eq_true] at hcontra
  have hinf : p.1.data <:+: (pyLower H).data := by
    have := hcontra.1
    simp only [inStr] at this
    exact of_decide_eq_true this
  have hlen2 : 2 < p.1.length := of_decide_eq_true hcontra.2
  have hle : p.1.data.length ≤ (pyLower H).data.length := hinf.length_le
  have hlow : (pyLower H).data.length = H.data.length := by
    simp [pyLower]
  have e1 : p.1.length = p.1.data.length := rfl
  have e2 : H.length = H.data.length := rfl
  omega

theorem short_header_no_substring_match_witness :
    ("ID" : String).length < 3 ∧ findSubstrPattern (pyLower "ID") = none :=
  ⟨by decide, (short_header_no_substring_match "ID" (by decide)).2.2⟩

/-- C9: `generate_description_with_model` returns exactly what
`generate_description_simple` returns on every header, and initialization
leaves the classifier field at `none`: no model is ever installed, so every
description comes from the deterministic pattern matcher. -/
theorem with_model_equals_simple (H model_name : String) :
    generate_description_with_model H = generate_description_simple H ∧
    (analyzerInit model_name).classifier = none :=
  ⟨rfl, rfl⟩

/-- C10: a file that exists but has no first record makes `next(reader)`
raise, the handler returns the empty list, and `main` then exits with
status 1 for any argument vector and any write outcome. -/
theorem empty_file_yields_no_headers (argv : List String) (w : WriteOutcome) :
    read_csv_headers (FileState.rows []) = [] ∧
    main_exit argv (FileState.rows []) w = 1 :=
  ⟨rfl, main_exit_eq_one_of_empty argv (FileState.rows []) w rfl⟩
